import Mathlib

/-!
Verification of the offline-first task sync backend.

This file gives a shallow embedding of the repository's service layer:
`TaskService` (createTask, updateTask, deleteTask) and `SyncService`
(sync, updateSyncStatus, handleSyncError, resolveConflict), together with
theorems settling the specification claims about conflict resolution,
queue accounting, batching, retry handling and error propagation.

Modelling conventions:
- the SQLite database is a pair of lists (`tasks` and `sync_queue` rows);
  each SQL statement is a pure transformation of this state, and statements
  commit independently (the source opens no transaction);
- timestamps are naturals (`new Date(...).getTime()` order is all the code
  consults);
- generated identifiers (uuidv4, autoincrement queue ids) are passed in as
  parameters;
- remote HTTP exchanges (the batch POST of `processBatch` and the conflict
  GET) are parameters: a transport function returning per-item outcomes,
  and the fetched server task;
- a fallible queue insert is modelled by a `queueOk` flag selecting the
  success or the throw path of the surrounding try/catch.
-/

deriving instance DecidableEq for Except

namespace SyncSpec

/-- Sync status of a task row (the `sync_status` column). -/
inductive SyncStatus where
  | pending
  | synced
  | error
deriving DecidableEq

/-- Queue operation kind (the `operation` column). -/
inductive Operation where
  | create
  | update
  | delete
deriving DecidableEq

/-- A row of the `tasks` table / an in-memory `Task` object. -/
structure Task where
  id : String
  title : String
  description : String
  completed : Bool
  createdAt : Nat
  updatedAt : Nat
  isDeleted : Bool
  syncStatus : SyncStatus
  serverId : Option String
  lastSyncedAt : Option Nat
deriving DecidableEq

/-- A row of the `sync_queue` table.  `data` is the task snapshot that the
source stores JSON-serialized; the queue never inspects it. -/
structure SyncQueueItem where
  id : Nat
  taskId : String
  operation : Operation
  data : Task
  retryCount : Nat
  lastError : Option String
  createdAt : Nat
deriving DecidableEq

/-- The SQLite database state: the `tasks` and `sync_queue` tables. -/
structure DB where
  tasks : List Task
  syncQueue : List SyncQueueItem
deriving DecidableEq

/-- The empty database. -/
def emptyDB : DB := { tasks := [], syncQueue := [] }

/-- The fields of `Partial<Task>` that `createTask` / `updateTask` read
from their argument (`title`, `description`, `completed`). -/
structure TaskUpdates where
  title : Option String
  description : Option String
  completed : Option Bool
deriving DecidableEq

/-- Embeds `db.get('SELECT * FROM tasks WHERE id = ?')`: first row with this id. -/
def findTask (db : DB) (id : String) : Option Task :=
  db.tasks.find? (fun t => t.id == id)

/-- The `Task` object `createTask` builds before inserting
(taskService, lines 19-30). -/
def mkCreatedTask (id : String) (now : Nat) (d : TaskUpdates) : Task :=
  { id := id
    title := d.title.getD "untitled task"
    description := d.description.getD ""
    completed := d.completed.getD false
    createdAt := now
    updatedAt := now
    isDeleted := false
    syncStatus := .pending
    serverId := none
    lastSyncedAt := some now }

/-- The row actually inserted by `createTask`: its INSERT lists only the
eight columns through `sync_status`, so `server_id` and `last_synced_at`
are stored NULL even though the returned object carries them. -/
def storedTaskRow (t : Task) : Task :=
  { t with serverId := none, lastSyncedAt := none }

/-- The `sync_queue` row appended by `createTask` (columns id, task_id,
operation, data).  Modelled from the spec: the schema itself is not under
src/, and §4.1 fixes the defaulted columns to retry_count = 0 and
created_at = now. -/
def createQueueItem (qid : Nat) (t : Task) (now : Nat) : SyncQueueItem :=
  { id := qid
    taskId := t.id
    operation := .create
    data := t
    retryCount := 0
    lastError := none
    createdAt := now }

/-- Embeds `TaskService.createTask`: insert the task row, then append the queue
item.  `queueOk = false` selects the throw path of the queue INSERT; the
task INSERT has already committed (no transaction in the source), and the
catch block rethrows `new Error('Not implemented')`. -/
def createTask (db : DB) (now : Nat) (id : String) (qid : Nat)
    (d : TaskUpdates) (queueOk : Bool) : Except String Task × DB :=
  let task := mkCreatedTask id now d
  let db1 : DB := { db with tasks := db.tasks ++ [storedTaskRow task] }
  if queueOk then
    (Except.ok task,
      { db1 with syncQueue := db1.syncQueue ++ [createQueueItem qid task now] })
  else
    (Except.error "Not implemented", db1)

/-- The merged task `updateTask` builds from the existing row and the
updates (taskService, lines 82-92). -/
def applyUpdates (t : Task) (u : TaskUpdates) (now : Nat) : Task :=
  { t with
    title := u.title.getD t.title
    description := u.description.getD t.description
    completed := u.completed.getD t.completed
    updatedAt := now
    syncStatus := .pending }

/-- The SQL UPDATE of `updateTask` writes exactly five columns of the
matching row, taking their values from the merged task `v`. -/
def writeTaskUpdate (v : Task) (t : Task) : Task :=
  { t with
    title := v.title
    description := v.description
    completed := v.completed
    updatedAt := v.updatedAt
    syncStatus := v.syncStatus }

/-- Embeds `TaskService.updateTask`: return null when the task is missing or
soft-deleted; otherwise UPDATE the row, then append an `update` queue item.
`queueOk = false` selects the throw path of the queue INSERT (the row
UPDATE has already committed); the catch rethrows
`new Error('Failed to update task')`. -/
def updateTask (db : DB) (now : Nat) (qid : Nat) (queueOk : Bool)
    (id : String) (u : TaskUpdates) : Except String (Option Task) × DB :=
  match findTask db id with
  | none => (Except.ok none, db)
  | some existingTask =>
    if existingTask.isDeleted then (Except.ok none, db)
    else
      let updatedTask := applyUpdates existingTask u now
      let db1 : DB :=
        { db with tasks := db.tasks.map (fun t =>
            if t.id == id then writeTaskUpdate updatedTask t else t) }
      if queueOk then
        (Except.ok (some updatedTask),
          { db1 with syncQueue := db1.syncQueue ++
              [{ id := qid, taskId := id, operation := .update,
                 data := updatedTask, retryCount := 0, lastError := none,
                 createdAt := now }] })
      else
        (Except.error "Failed to update task", db1)

/-- Embeds `TaskService.deleteTask`: return false when the task is missing or
already soft-deleted; otherwise set `is_deleted`, bump `updated_at`, mark
pending, and append a `delete` queue item carrying the pre-delete
snapshot.  `queueOk` as in `updateTask`. -/
def deleteTask (db : DB) (now : Nat) (qid : Nat) (queueOk : Bool)
    (id : String) : Except String Bool × DB :=
  match findTask db id with
  | none => (Except.ok false, db)
  | some existingTask =>
    if existingTask.isDeleted then (Except.ok false, db)
    else
      let db1 : DB :=
        { db with tasks := db.tasks.map (fun t =>
            if t.id == id then
              { t with isDeleted := true, updatedAt := now,
                       syncStatus := .pending }
            else t) }
      if queueOk then
        (Except.ok true,
          { db1 with syncQueue := db1.syncQueue ++
              [{ id := qid, taskId := id, operation := .delete,
                 data := existingTask, retryCount := 0, lastError := none,
                 createdAt := now }] })
      else
        (Except.error "Failed to delete task", db1)

/-- The part of a per-item `resolved_data` payload that
`updateSyncStatus` consults: only its `server_id` field (syncService,
line 160). -/
structure ResolvedData where
  serverId : Option String
deriving DecidableEq

/-- The status argument of `updateSyncStatus` (`'synced' | 'error'`). -/
inductive UpStatus where
  | synced
  | error
deriving DecidableEq

/-- The task-row update of the `'synced'` branch of `updateSyncStatus`:
`sync_status = 'synced'`, `server_id = serverData?.server_id ?? null`,
`last_synced_at = now`. -/
def setSyncedRow (now : Nat) (serverData : Option ResolvedData) (t : Task) : Task :=
  { t with
    syncStatus := .synced
    serverId := serverData.bind (fun d => d.serverId)
    lastSyncedAt := some now }

/-- Embeds `SyncService.updateSyncStatus`: on `'synced'`, update the task row and
`DELETE FROM sync_queue WHERE task_id = ?` (deletion is keyed by task id,
not by queue-item id); on `'error'`, only set the task's status. -/
def updateSyncStatus (db : DB) (now : Nat) (taskId : String)
    (status : UpStatus) (serverData : Option ResolvedData) : DB :=
  match status with
  | .synced =>
    { tasks := db.tasks.map (fun t =>
        if t.id == taskId then setSyncedRow now serverData t else t)
      syncQueue := db.syncQueue.filter (fun q => !(q.taskId == taskId)) }
  | .error =>
    { db with tasks := db.tasks.map (fun t =>
        if t.id == taskId then { t with syncStatus := .error } else t) }

/-- Embeds `SyncService.handleSyncError`: compute `newCount = retry_count + 1`
from the in-memory item; if it reaches the retry limit, set the owning
task's status to `'error'`; always write `retry_count` and `last_error`
back to the queue row. -/
def handleSyncError (retryLimit : Nat) (db : DB) (item : SyncQueueItem)
    (errMsg : String) : DB :=
  let newCount := item.retryCount + 1
  let db1 : DB :=
    if retryLimit ≤ newCount then
      { db with tasks := db.tasks.map (fun t =>
          if t.id == item.taskId then { t with syncStatus := .error } else t) }
    else db
  { db1 with syncQueue := db1.syncQueue.map (fun q =>
      if q.id == item.id then
        { q with retryCount := newCount, lastError := some errMsg }
      else q) }

/-- Status of one entry of `processed_items` in the batch response. -/
inductive ItemStatus where
  | success
  | conflict
  | error
deriving DecidableEq

/-- One entry of `processed_items` in the batch response, as `sync`
consumes it (after `processBatch` has upgraded resolved conflicts). -/
structure ProcessedItem where
  clientId : String
  status : ItemStatus
  resolvedData : Option ResolvedData
  errMsg : Option String
deriving DecidableEq

/-- An entry of the aggregated `errors` array of a sync run: either a
per-item result pushed verbatim, or the `{task_id, operation, error}`
record built for a transport-level batch failure. -/
inductive SyncErrorEntry where
  | itemResult (r : ProcessedItem)
  | batchFailure (taskId : String) (operation : Operation) (message : String)
deriving DecidableEq

/-- The `SyncResult` summary returned by `sync`. -/
structure SyncResult where
  success : Bool
  syncedItems : Nat
  failedItems : Nat
  errors : List SyncErrorEntry
deriving DecidableEq

/-- Outcome of one `processBatch` round trip as observed by `sync`: the
per-item results, or a thrown transport-level error. -/
inductive BatchOutcome where
  | ok (processedItems : List ProcessedItem)
  | err (message : String)
deriving DecidableEq

/-- Insert one queue item into a list sorted by `created_at`. -/
def insertByCreatedAt (x : SyncQueueItem) :
    List SyncQueueItem → List SyncQueueItem
  | [] => [x]
  | y :: ys =>
    if x.createdAt < y.createdAt then x :: y :: ys
    else y :: insertByCreatedAt x ys

/-- Embeds `ORDER BY created_at ASC` on a list of queue rows. -/
def sortByCreatedAt : List SyncQueueItem → List SyncQueueItem
  | [] => []
  | x :: xs => insertByCreatedAt x (sortByCreatedAt xs)

/-- The due-item query of `sync`:
`SELECT * FROM sync_queue WHERE retry_count < ? ORDER BY created_at ASC`. -/
def dueItems (db : DB) (retryLimit : Nat) : List SyncQueueItem :=
  sortByCreatedAt (db.syncQueue.filter (fun q => decide (q.retryCount < retryLimit)))

/-- Fuel-driven batch slicing (structural recursion so that concrete runs
reduce); `toBatches` supplies `l.length` fuel, which suffices whenever the
batch size is positive. -/
def toBatchesF (B : Nat) : Nat → List SyncQueueItem → List (List SyncQueueItem)
  | _, [] => []
  | 0, _ :: _ => []
  | fuel + 1, a :: l => (a :: l).take B :: toBatchesF B fuel ((a :: l).drop B)

/-- The batch partition of `sync` (lines 37-40): consecutive slices of at
most `B` items.  The source loop does not terminate for `B = 0`; that
case is excluded by the `B > 0` hypotheses. -/
def toBatches (B : Nat) (l : List SyncQueueItem) : List (List SyncQueueItem) :=
  toBatchesF B l.length l

/-- Accumulator of the per-item loop over one batch response. -/
structure BatchAcc where
  synced : Nat
  failed : Nat
  errors : List SyncErrorEntry
  db : DB

/-- The per-item loop of `sync` (lines 50-58) over one batch's
`processed_items`: a `success` result is applied via `updateSyncStatus`
and counted synced; any other status is counted failed and pushed to
`errors` — no queue write happens for it. -/
def processResults (now : Nat) : List ProcessedItem → DB → BatchAcc
  | [], db => { synced := 0, failed := 0, errors := [], db := db }
  | r :: rs, db =>
    if r.status == .success then
      let db1 := updateSyncStatus db now r.clientId .synced r.resolvedData
      let acc := processResults now rs db1
      { acc with synced := acc.synced + 1 }
    else
      let acc := processResults now rs db
      { acc with failed := acc.failed + 1, errors := .itemResult r :: acc.errors }

/-- The batch loop of `sync` (lines 46-70): invoke the transport on each
batch in order; interpret per-item results on success, or run every item
of the batch through `handleSyncError` and count the whole batch failed
on a thrown transport error; always continue with the next batch. -/
def runBatches (retryLimit now : Nat)
    (transport : List SyncQueueItem → BatchOutcome) :
    List (List SyncQueueItem) → DB → Nat → Nat → List SyncErrorEntry →
    SyncResult × DB
  | [], db, synced, failed, errors =>
    ({ success := failed == 0, syncedItems := synced, failedItems := failed,
       errors := errors }, db)
  | batch :: rest, db, synced, failed, errors =>
    match transport batch with
    | .ok results =>
      let acc := processResults now results db
      runBatches retryLimit now transport rest acc.db (synced + acc.synced)
        (failed + acc.failed) (errors ++ acc.errors)
    | .err msg =>
      let db1 := batch.foldl (fun d item => handleSyncError retryLimit d item msg) db
      runBatches retryLimit now transport rest db1 synced (failed + batch.length)
        (errors ++ batch.map (fun i =>
          SyncErrorEntry.batchFailure i.taskId i.operation msg))

/-- Embeds `SyncService.sync`: read due items, return a zero success result when
there are none, otherwise partition into batches and run the batch loop.
The third component records the batch payloads handed to the transport —
one transport call is issued per entry. -/
def sync (retryLimit batchSize now : Nat)
    (transport : List SyncQueueItem → BatchOutcome) (db : DB) :
    SyncResult × DB × List (List SyncQueueItem) :=
  let items := dueItems db retryLimit
  if items.isEmpty then
    ({ success := true, syncedItems := 0, failedItems := 0, errors := [] },
      db, [])
  else
    let batches := toBatches batchSize items
    let rb := runBatches retryLimit now transport batches db 0 0 []
    (rb.1, rb.2, batches)

/-- The `Partial<Task>` value passed when the source hands a whole `Task`
to `updateTask` (conflict write-back). -/
def taskToUpdates (t : Task) : TaskUpdates :=
  { title := some t.title
    description := some t.description
    completed := some t.completed }

/-- Embeds `SyncService.resolveConflict`: load the local row by `clientId`
(`none` models the crash on a missing row), take the fetched server task
as a parameter, and apply last-write-wins on `updated_at`: the local task
wins a tie or anything later (`localTime >= serverTime`); otherwise the
server task wins and is written back into the local store through
`updateTask`. -/
def resolveConflictRun (db : DB) (now qid : Nat) (clientId : String)
    (serverTask : Task) : Option (Task × DB) :=
  match findTask db clientId with
  | none => none
  | some localTask =>
    if serverTask.updatedAt ≤ localTask.updatedAt then
      some (localTask, db)
    else
      some (serverTask,
        (updateTask db now qid true localTask.id (taskToUpdates serverTask)).2)

/-- A per-item `success` result for client id `c` with no resolved
payload. -/
def mkSuccessItem (c : String) : ProcessedItem :=
  { clientId := c, status := .success, resolvedData := none, errMsg := none }

/-- A per-item `error` result for client id `c` carrying `msg`. -/
def mkRejectItem (msg c : String) : ProcessedItem :=
  { clientId := c, status := .error, resolvedData := none, errMsg := some msg }

/-- Test transport: the remote confirms every item of every batch
(per-item `success`, no resolved payload). -/
def successTransport : List SyncQueueItem → BatchOutcome :=
  fun batch => .ok (batch.map (fun i => mkSuccessItem i.taskId))

/-- Test transport: every batch round trip fails at the transport level
(timeout / network error / non-success status). -/
def errorTransport (msg : String) : List SyncQueueItem → BatchOutcome :=
  fun _ => .err msg

/-- Test transport: the remote answers each item with a per-item `error`
result carrying `msg`. -/
def rejectTransport (msg : String) : List SyncQueueItem → BatchOutcome :=
  fun batch => .ok (batch.map (fun i => mkRejectItem msg i.taskId))

/-- The queue-row effect of one failing attempt: `handleSyncError` bumps
`retry_count` and stores the error on the row of each due item. -/
def bumpRow (retryLimit : Nat) (msg : String) (q : SyncQueueItem) : SyncQueueItem :=
  if q.retryCount < retryLimit then
    { q with retryCount := q.retryCount + 1, lastError := some msg }
  else q

/-- Whether some due queue row for task `tid` reaches the retry limit on
this cycle (and hence flips the task's status to `'error'`). -/
def deadLetters (retryLimit : Nat) (db : DB) (tid : String) : Bool :=
  db.syncQueue.any (fun q =>
    decide (q.retryCount < retryLimit) && decide (retryLimit ≤ q.retryCount + 1)
      && (q.taskId == tid))

/-- Net database effect of one `sync` run in which every batch fails at
the transport level: every due row is bumped, and tasks owning a row that
just exhausted its budget are marked `'error'`. -/
def applyFailCycle (retryLimit : Nat) (msg : String) (db : DB) : DB :=
  { tasks := db.tasks.map (fun t =>
      if deadLetters retryLimit db t.id then { t with syncStatus := .error }
      else t)
    syncQueue := db.syncQueue.map (bumpRow retryLimit msg) }

/-- Net database effect of confirming the list `cs` of client ids: each
confirmed task row is marked synced and every queue row whose task id is
confirmed is deleted. -/
def applySuccess (now : Nat) (cs : List String) (db : DB) : DB :=
  { tasks := db.tasks.map (fun t =>
      if cs.any (fun c => t.id == c) then setSyncedRow now none t else t)
    syncQueue := db.syncQueue.filter (fun q => !(cs.any (fun c => q.taskId == c))) }

/-- Iterated all-fail cycles (used for retry accounting). -/
def failIter (retryLimit : Nat) (msg : String) : Nat → DB → DB
  | 0, db => db
  | k + 1, db => failIter retryLimit msg k (applyFailCycle retryLimit msg db)

/-- Iterated `bumpRow` (the row of one item across failing cycles). -/
def bumpIter (retryLimit : Nat) (msg : String) : Nat → SyncQueueItem → SyncQueueItem
  | 0, q => q
  | k + 1, q => bumpIter retryLimit msg k (bumpRow retryLimit msg q)

/-- Runs `k` consecutive `sync` cycles against an all-fail transport. -/
def syncCycles (retryLimit batchSize now : Nat) (msg : String) :
    Nat → DB → DB
  | 0, db => db
  | k + 1, db =>
    syncCycles retryLimit batchSize now msg k
      (sync retryLimit batchSize now (errorTransport msg) db).2.1

/-- Creating a list of tasks offline, in order (id and input data per
task; fresh queue ids are irrelevant to the claims and fixed at 0). -/
def createMany (now : Nat) : List (String × TaskUpdates) → DB → DB
  | [], db => db
  | (i, u) :: rest, db => createMany now rest (createTask db now i 0 u true).2

/-- A concrete pending task (fixture for witnesses and counterexamples). -/
def mkT (id : String) (u : Nat) (del : Bool) : Task :=
  { id := id, title := "t", description := "", completed := false,
    createdAt := 0, updatedAt := u, isDeleted := del, syncStatus := .pending,
    serverId := none, lastSyncedAt := none }

/-- A concrete queue row (fixture for witnesses and counterexamples). -/
def mkQ (qid : Nat) (tid : String) (op : Operation) (rc : Nat) (c : Nat) : SyncQueueItem :=
  { id := qid, taskId := tid, operation := op, data := mkT tid 0 false,
    retryCount := rc, lastError := none, createdAt := c }

/-- Fixture: one pending task with one due `create` queue row. -/
def oneItemDB : DB := { tasks := [mkT "A" 0 false], syncQueue := [mkQ 1 "A" .create 0 0] }

/-- Fixture: one task with two pending queue rows (a `create` and a later
`update`) for the same task id. -/
def twoItemSameTaskDB : DB :=
  { tasks := [mkT "A" 0 false]
    syncQueue := [mkQ 1 "A" .create 0 0, mkQ 2 "A" .update 0 1] }

/-- Fixture: three tasks, each with one due queue row. -/
def threeItemDB : DB :=
  { tasks := [mkT "A" 0 false, mkT "B" 0 false, mkT "C" 0 false]
    syncQueue := [mkQ 1 "A" .create 0 0, mkQ 2 "B" .create 0 1, mkQ 3 "C" .create 0 2] }

/-- Fixture: local side of a conflict with an equal-timestamp remote whose
version embodies a pending delete. -/
def c1local : Task := mkT "t1" 100 false

/-- Fixture: the remote, soft-deleted version of `c1local` at the same
`updated_at` (the delete side of the tie). -/
def c1remote : Task := mkT "t1" 100 true

/-- Fixture: store holding `c1local` and its pending `create` queue row. -/
def c1db : DB := { tasks := [c1local], syncQueue := [mkQ 1 "t1" .create 0 0] }

/-- Fixture: local side of a conflict the remote wins on recency. -/
def c3local : Task := mkT "t1" 10 false

/-- Fixture: strictly newer remote version of `c3local`. -/
def c3remote : Task := mkT "t1" 20 false

/-- Fixture: store holding `c3local` with an empty queue. -/
def c3db : DB := { tasks := [c3local], syncQueue := [] }

/-- Fixture: a second store holding the same local version of the task
(used to restate the conflict decision against a different store state). -/
def c3db2 : DB := { tasks := [c3local, mkT "other" 5 false], syncQueue := [mkQ 9 "other" .update 2 4] }

/-- Fixture: a store whose only task is already soft-deleted. -/
def c10db : DB := { tasks := [mkT "A" 3 true], syncQueue := [] }

/-! ### Ordering and batching lemmas -/

theorem perm_insertByCreatedAt (x : SyncQueueItem) (l : List SyncQueueItem) :
    List.Perm (insertByCreatedAt x l) (x :: l) := by
  induction l with
  | nil => simp [insertByCreatedAt]
  | cons y ys ih =>
    simp only [insertByCreatedAt]
    split
    · exact List.Perm.refl _
    · exact (ih.cons y).trans (List.Perm.swap x y ys)

theorem perm_sortByCreatedAt (l : List SyncQueueItem) :
    List.Perm (sortByCreatedAt l) l := by
  induction l with
  | nil => simp [sortByCreatedAt]
  | cons x xs ih =>
    exact (perm_insertByCreatedAt x (sortByCreatedAt xs)).trans (ih.cons x)

theorem dueItems_perm (db : DB) (limit : Nat) :
    List.Perm (dueItems db limit)
      (db.syncQueue.filter (fun q => decide (q.retryCount < limit))) :=
  perm_sortByCreatedAt _

theorem mem_dueItems {db : DB} {limit : Nat} {q : SyncQueueItem} :
    q ∈ dueItems db limit ↔ q ∈ db.syncQueue ∧ q.retryCount < limit := by
  rw [(dueItems_perm db limit).mem_iff, List.mem_filter]
  simp

theorem dueItems_length (db : DB) (limit : Nat) :
    (dueItems db limit).length =
      (db.syncQueue.filter (fun q => decide (q.retryCount < limit))).length :=
  (dueItems_perm db limit).length_eq

theorem toBatchesF_fuel (B : Nat) (hB : B ≠ 0) :
    ∀ (fuel : Nat) (l : List SyncQueueItem), l.length ≤ fuel →
      toBatchesF B fuel l = toBatchesF B l.length l := by
  intro fuel
  induction fuel using Nat.strong_induction_on with
  | _ fuel ih =>
    intro l hl
    cases l with
    | nil => cases fuel <;> rfl
    | cons a l =>
      cases fuel with
      | zero => simp at hl
      | succ fuel =>
        simp only [List.length_cons, toBatchesF]
        congr 1
        have hdl : ((a :: l).drop B).length ≤ l.length := by
          simp only [List.length_drop, List.length_cons]
          omega
        have hfuel : l.length ≤ fuel := by simpa using hl
        rw [ih fuel (Nat.lt_succ_self fuel) _ (le_trans hdl hfuel),
          ih l.length (Nat.lt_succ_of_le hfuel) _ hdl]

theorem toBatches_nil (B : Nat) : toBatches B [] = [] := rfl

theorem toBatches_cons (B : Nat) (hB : B ≠ 0) (l : List SyncQueueItem)
    (hl : l ≠ []) :
    toBatches B l = l.take B :: toBatches B (l.drop B) := by
  obtain ⟨a, l, rfl⟩ := List.exists_cons_of_ne_nil hl
  show toBatchesF B (l.length + 1) (a :: l) = _
  simp only [toBatchesF]
  congr 1
  rw [toBatches]
  exact toBatchesF_fuel B hB l.length _ (by simp [List.length_drop]; omega)

theorem toBatches_flatten (B : Nat) (hB : B ≠ 0) (l : List SyncQueueItem) :
    (toBatches B l).flatten = l := by
  generalize hn : l.length = n
  induction n using Nat.strong_induction_on generalizing l with
  | _ n ih =>
    rcases eq_or_ne l [] with rfl | hl
    · simp [toBatches_nil]
    · rw [toBatches_cons B hB l hl]
      have hpos : 0 < l.length := List.length_pos.mpr hl
      have hlt : (l.drop B).length < n := by
        simp only [List.length_drop]; omega
      rw [List.flatten_cons, ih _ hlt _ rfl, List.take_append_drop]

theorem toBatches_length (B : Nat) (hB : B ≠ 0) (l : List SyncQueueItem) :
    (toBatches B l).length = (l.length + B - 1) / B := by
  generalize hn : l.length = n
  induction n using Nat.strong_induction_on generalizing l with
  | _ n ih =>
    rcases eq_or_ne l [] with rfl | hl
    · simp at hn
      subst hn
      simp [toBatches_nil, Nat.div_eq_of_lt (by omega : B - 1 < B)]
    · rw [toBatches_cons B hB l hl]
      have hpos : 0 < l.length := List.length_pos.mpr hl
      have hlt : (l.drop B).length < n := by
        simp only [List.length_drop]; omega
      rw [List.length_cons, ih _ hlt _ rfl]
      simp only [List.length_drop]
      subst hn
      rcases le_or_lt l.length B with hle | hgt
      · have h1 : l.length - B = 0 := by omega
        rw [h1]
        have h2 : (0 + B - 1) / B = 0 := Nat.div_eq_of_lt (by omega)
        have h3 : l.length + B - 1 = (l.length - 1) + B := by omega
        rw [h2, h3, Nat.add_div_right _ (Nat.pos_of_ne_zero hB),
          Nat.div_eq_of_lt (by omega : l.length - 1 < B)]
      · have h4 : l.length - B + B - 1 = l.length - 1 := by omega
        have h5 : l.length + B - 1 = (l.length - 1) + B := by omega
        rw [h4, h5, Nat.add_div_right _ (Nat.pos_of_ne_zero hB)]

theorem toBatches_le (B : Nat) (hB : B ≠ 0) (l : List SyncQueueItem)
    (r : List SyncQueueItem) (hr : r ∈ toBatches B l) : r.length ≤ B := by
  revert hr
  generalize hn : l.length = n
  induction n using Nat.strong_induction_on generalizing l r with
  | _ n ih =>
    intro hr
    rcases eq_or_ne l [] with rfl | hl
    · simp [toBatches_nil] at hr
    · rw [toBatches_cons B hB l hl] at hr
      have hpos : 0 < l.length := List.length_pos.mpr hl
      rcases List.mem_cons.mp hr with rfl | hr2
      · exact List.length_take_le B l
      · subst hn
        exact ih (l.drop B).length (by simp only [List.length_drop]; omega) _ _ rfl hr2

theorem toBatches_dropLast (B : Nat) (hB : B ≠ 0) (l : List SyncQueueItem)
    (r : List SyncQueueItem) (hr : r ∈ (toBatches B l).dropLast) :
    r.length = B := by
  revert hr
  generalize hn : l.length = n
  induction n using Nat.strong_induction_on generalizing l r with
  | _ n ih =>
    intro hr
    rcases eq_or_ne l [] with rfl | hl
    · simp [toBatches_nil] at hr
    · rw [toBatches_cons B hB l hl] at hr
      have hpos : 0 < l.length := List.length_pos.mpr hl
      rcases eq_or_ne (l.drop B) [] with hnil | hne
      · rw [hnil, toBatches_nil] at hr
        simp at hr
      · have htail : toBatches B (l.drop B) ≠ [] := by
          rw [toBatches_cons B hB _ hne]
          exact List.cons_ne_nil _ _
        rw [List.dropLast_cons_of_ne_nil htail] at hr
        rcases List.mem_cons.mp hr with rfl | hr2
        · have hgt : B < l.length := by
            by_contra hc
            exact hne (List.drop_eq_nil_of_le (by omega))
          simp [List.length_take]
          omega
        · subst hn
          exact ih (l.drop B).length (by simp only [List.length_drop]; omega) _ _
            rfl hr2

/-! ### Per-item result processing -/

theorem processResults_counts (now : Nat) (rs : List ProcessedItem) (db : DB) :
    (processResults now rs db).synced + (processResults now rs db).failed
      = rs.length := by
  induction rs generalizing db with
  | nil => simp [processResults]
  | cons r rs ih =>
    simp only [processResults]
    split
    · have := ih (updateSyncStatus db now r.clientId .synced r.resolvedData)
      simp only [List.length_cons]
      omega
    · have := ih db
      simp only [List.length_cons]
      omega

theorem processResults_error (now : Nat) (rs : List ProcessedItem) (db : DB)
    (h : ∀ r ∈ rs, r.status ≠ .success) :
    processResults now rs db =
      { synced := 0, failed := rs.length,
        errors := rs.map SyncErrorEntry.itemResult, db := db } := by
  induction rs generalizing db with
  | nil => simp [processResults]
  | cons r rs ih =>
    have hr : (r.status == ItemStatus.success) = false := by
      simpa using h r (List.mem_cons_self r rs)
    simp only [processResults, hr, Bool.false_eq_true, if_false]
    rw [ih db (fun x hx => h x (List.mem_cons_of_mem r hx))]
    simp

theorem applySuccess_nil (now : Nat) (db : DB) :
    applySuccess now [] db = db := by
  simp [applySuccess]

theorem setSyncedRow_id (now : Nat) (d : Option ResolvedData) (t : Task) :
    (setSyncedRow now d t).id = t.id := rfl

theorem applySuccess_append (now : Nat) (cs₁ cs₂ : List String) (db : DB) :
    applySuccess now cs₂ (applySuccess now cs₁ db)
      = applySuccess now (cs₁ ++ cs₂) db := by
  simp only [applySuccess, List.map_map, List.filter_filter]
  congr 1
  · apply List.map_congr_left
    intro t _
    simp only [Function.comp]
    by_cases h1 : cs₁.any (fun c => t.id == c)
    · simp only [h1, if_true, List.any_append]
      by_cases h2 : cs₂.any (fun c => (setSyncedRow now none t).id == c)
      · simp only [h2, if_true]
        simp [setSyncedRow, h1]
      · simp only [h2, if_false]
        simp [setSyncedRow_id] at h2
        simp [h1]
    · simp only [h1, if_false, List.any_append]
      by_cases h2 : cs₂.any (fun c => t.id == c)
      · simp [h1, h2]
      · simp [h1, h2]
  · apply List.filter_congr
    intro q _
    simp [List.any_append, Bool.not_or, Bool.and_comm]

theorem updateSyncStatus_synced_none (db : DB) (now : Nat) (c : String) :
    updateSyncStatus db now c .synced none = applySuccess now [c] db := by
  simp only [updateSyncStatus, applySuccess]
  congr 1
  · apply List.map_congr_left
    intro t _
    simp [setSyncedRow]
  · apply List.filter_congr
    intro q _
    simp

theorem processResults_success_list (now : Nat) (cs : List String) (db : DB) :
    processResults now (cs.map mkSuccessItem) db =
      { synced := cs.length, failed := 0, errors := [],
        db := applySuccess now cs db } := by
  induction cs generalizing db with
  | nil => simp [processResults, applySuccess_nil]
  | cons c cs ih =>
    simp only [List.map_cons, processResults, mkSuccessItem]
    rw [if_pos (by rfl)]
    rw [ih (updateSyncStatus db now c .synced none)]
    simp only [List.length_cons]
    congr 1
    rw [updateSyncStatus_synced_none, applySuccess_append]
    rfl

/-! ### Batch loop lemmas -/

theorem runBatches_errorTransport (limit now : Nat) (msg : String) :
    ∀ (bs : List (List SyncQueueItem)) (db : DB) (s f : Nat)
      (es : List SyncErrorEntry),
      runBatches limit now (errorTransport msg) bs db s f es =
        ({ success := (f + (bs.map List.length).sum) == 0
           syncedItems := s
           failedItems := f + (bs.map List.length).sum
           errors := es ++ bs.flatten.map (fun i =>
             SyncErrorEntry.batchFailure i.taskId i.operation msg) },
         bs.flatten.foldl (fun d item => handleSyncError limit d item msg) db) := by
  intro bs
  induction bs with
  | nil => intro db s f es; simp [runBatches]
  | cons b bs ih =>
    intro db s f es
    simp only [runBatches, errorTransport]
    rw [ih]
    simp only [List.map_cons, List.sum_cons, List.flatten_cons, List.map_append,
      List.append_assoc, List.foldl_append]
    have harith : f + b.length + (List.map List.length bs).sum
        = f + (b.length + (List.map List.length bs).sum) := by omega
    rw [harith]

theorem runBatches_successTransport (limit now : Nat) :
    ∀ (bs : List (List SyncQueueItem)) (db : DB) (s f : Nat)
      (es : List SyncErrorEntry),
      runBatches limit now successTransport bs db s f es =
        ({ success := f == 0
           syncedItems := s + (bs.map List.length).sum
           failedItems := f
           errors := es },
         applySuccess now (bs.flatten.map (fun q => q.taskId)) db) := by
  intro bs
  induction bs with
  | nil =>
    intro db s f es
    simp [runBatches, applySuccess_nil]
  | cons b bs ih =>
    intro db s f es
    simp only [runBatches, successTransport]
    have hmap : b.map (fun i => mkSuccessItem i.taskId)
        = (b.map (fun i => i.taskId)).map mkSuccessItem := by
      simp [List.map_map, Function.comp]
    rw [hmap, processResults_success_list]
    rw [ih]
    simp only [List.map_cons, List.sum_cons, List.flatten_cons, List.map_append]
    rw [applySuccess_append]
    have harith : s + (b.map (fun i => i.taskId)).length
          + (List.map List.length bs).sum
        = s + (b.length + (List.map List.length bs).sum) := by
      simp only [List.length_map]
      omega
    rw [harith]
    simp

theorem runBatches_rejectTransport (limit now : Nat) (msg : String) :
    ∀ (bs : List (List SyncQueueItem)) (db : DB) (s f : Nat)
      (es : List SyncErrorEntry),
      runBatches limit now (rejectTransport msg) bs db s f es =
        ({ success := (f + (bs.map List.length).sum) == 0
           syncedItems := s
           failedItems := f + (bs.map List.length).sum
           errors := es ++ bs.flatten.map (fun i =>
             SyncErrorEntry.itemResult (mkRejectItem msg i.taskId)) },
         db) := by
  intro bs
  induction bs with
  | nil => intro db s f es; simp [runBatches]
  | cons b bs ih =>
    intro db s f es
    simp only [runBatches, rejectTransport]
    have hstat : ∀ r ∈ b.map (fun i => mkRejectItem msg i.taskId),
        r.status ≠ ItemStatus.success := by
      intro r hr
      simp only [List.mem_map] at hr
      obtain ⟨i, _, rfl⟩ := hr
      simp [mkRejectItem]
    rw [processResults_error now _ db hstat]
    rw [ih]
    simp only [List.map_cons, List.sum_cons, List.flatten_cons, List.map_append,
      List.map_map, List.append_assoc, List.length_map]
    have harith : f + b.length + (List.map List.length bs).sum
        = f + (b.length + (List.map List.length bs).sum) := by omega
    rw [harith]
    rfl

theorem runBatches_counts (limit now : Nat)
    (transport : List SyncQueueItem → BatchOutcome)
    (htr : ∀ b res, transport b = BatchOutcome.ok res → res.length = b.length) :
    ∀ (bs : List (List SyncQueueItem)) (db : DB) (s f : Nat)
      (es : List SyncErrorEntry),
      (runBatches limit now transport bs db s f es).1.syncedItems
        + (runBatches limit now transport bs db s f es).1.failedItems
        = s + f + (bs.map List.length).sum := by
  intro bs
  induction bs with
  | nil => intro db s f es; simp [runBatches]
  | cons b bs ih =>
    intro db s f es
    simp only [runBatches]
    cases htrb : transport b with
    | ok results =>
      have hlen := htr b results htrb
      rw [ih]
      have := processResults_counts now results db
      simp only [List.map_cons, List.sum_cons]
      omega
    | err m =>
      rw [ih]
      simp only [List.map_cons, List.sum_cons]
      omega

theorem runBatches_success_eq (limit now : Nat)
    (transport : List SyncQueueItem → BatchOutcome) :
    ∀ (bs : List (List SyncQueueItem)) (db : DB) (s f : Nat)
      (es : List SyncErrorEntry),
      (runBatches limit now transport bs db s f es).1.success
        = ((runBatches limit now transport bs db s f es).1.failedItems == 0) := by
  intro bs
  induction bs with
  | nil => intro db s f es; rfl
  | cons b bs ih =>
    intro db s f es
    simp only [runBatches]
    cases transport b with
    | ok results => exact ih _ _ _ _
    | err m => exact ih _ _ _ _

/-! ### The all-fail cycle -/

theorem errRow_idem (t : Task) :
    ({ ({ t with syncStatus := SyncStatus.error }) with
        syncStatus := SyncStatus.error } : Task)
      = { t with syncStatus := SyncStatus.error } := rfl

theorem foldl_handleSyncError (limit : Nat) (msg : String) :
    ∀ (ps : List SyncQueueItem) (d : DB),
      (ps.map (fun p => p.id)).Nodup →
      (d.syncQueue.map (fun q => q.id)).Nodup →
      (∀ p ∈ ps, p ∈ d.syncQueue) →
      ps.foldl (fun a item => handleSyncError limit a item msg) d =
        { tasks := d.tasks.map (fun t =>
            if ps.any (fun p =>
                decide (limit ≤ p.retryCount + 1) && (p.taskId == t.id))
            then { t with syncStatus := .error } else t)
          syncQueue := d.syncQueue.map (fun q =>
            if ps.any (fun p => p.id == q.id)
            then { q with retryCount := q.retryCount + 1, lastError := some msg }
            else q) } := by
  intro ps
  induction ps with
  | nil =>
    intro d _ _ _
    simp only [List.foldl_nil, List.any_nil, Bool.false_eq_true, if_false]
    cases d
    simp
  | cons p ps ih =>
    intro d hps hd hmem
    rw [List.foldl_cons]
    have hpd : p ∈ d.syncQueue := hmem p (List.mem_cons_self p ps)
    have hps2 : (p.id :: ps.map (fun x => x.id)).Nodup := by simpa using hps
    have hpids : ∀ x ∈ ps, x.id ≠ p.id := by
      intro x hx hxe
      exact (List.nodup_cons.mp hps2).1 (List.mem_map.mpr ⟨x, hx, hxe⟩)
    have hd1tasks : (handleSyncError limit d p msg).tasks =
        if limit ≤ p.retryCount + 1
        then d.tasks.map (fun t =>
          if t.id == p.taskId then { t with syncStatus := .error } else t)
        else d.tasks := by
      simp only [handleSyncError]
      split <;> rfl
    have hd1q : (handleSyncError limit d p msg).syncQueue =
        d.syncQueue.map (fun q =>
          if q.id == p.id
          then { q with retryCount := p.retryCount + 1, lastError := some msg }
          else q) := by
      simp only [handleSyncError]
      split <;> rfl
    have hd1ids : (handleSyncError limit d p msg).syncQueue.map (fun q => q.id)
        = d.syncQueue.map (fun q => q.id) := by
      rw [hd1q, List.map_map]
      apply List.map_congr_left
      intro q _
      simp only [Function.comp]
      split <;> rfl
    have hmem1 : ∀ x ∈ ps, x ∈ (handleSyncError limit d p msg).syncQueue := by
      intro x hx
      have hxd : x ∈ d.syncQueue := hmem x (List.mem_cons_of_mem p hx)
      rw [hd1q]
      have hxid : (x.id == p.id) = false := by simpa using hpids x hx
      have hfix : (fun q => if q.id == p.id
          then { q with retryCount := p.retryCount + 1, lastError := some msg }
          else q) x = x := by
        simp [hxid]
      rw [← hfix]
      exact List.mem_map_of_mem _ hxd
    rw [ih (handleSyncError limit d p msg)
      (by simpa using (List.nodup_cons.mp hps2).2)
      (by rw [hd1ids]; exact hd) hmem1]
    congr 1
    · rw [hd1tasks]
      by_cases hc : limit ≤ p.retryCount + 1
      · rw [if_pos hc, List.map_map]
        apply List.map_congr_left
        intro t _
        simp only [Function.comp, List.any_cons]
        by_cases hin : t.id = p.taskId
        · have h1 : (t.id == p.taskId) = true := by simp [hin]
          have h2 : (p.taskId == t.id) = true := by simp [hin]
          have h3 : decide (limit ≤ p.retryCount + 1) = true := by simp [hc]
          simp only [h1, if_true, h2, h3, Bool.true_and, Bool.true_or]
          split
          · exact errRow_idem t
          · rfl
        · have h1 : (t.id == p.taskId) = false := by simpa using hin
          have h2 : (p.taskId == t.id) = false := by
            simpa using fun he => hin he.symm
          simp only [h1, Bool.false_eq_true, if_false, h2, Bool.and_false,
            Bool.false_or]
      · rw [if_neg hc]
        apply List.map_congr_left
        intro t _
        have h3 : decide (limit ≤ p.retryCount + 1) = false := by simp [hc]
        simp only [List.any_cons, h3, Bool.false_and, Bool.false_or]
    · rw [hd1q, List.map_map]
      apply List.map_congr_left
      intro q hq
      simp only [Function.comp, List.any_cons]
      by_cases hqp : q.id = p.id
      · have hqep : q = p := List.inj_on_of_nodup_map hd hq hpd hqp
        subst hqep
        have hfalse : (ps.any (fun x => x.id == q.id)) = false := by
          rw [List.any_eq_false]
          intro x hx
          simpa using hpids x hx
        simp [hfalse]
      · have h1 : (q.id == p.id) = false := by simpa using hqp
        have h2 : (p.id == q.id) = false := by
          simpa using fun he => hqp he.symm
        simp only [h1, Bool.false_eq_true, if_false, h2, Bool.false_or]

theorem dueItems_empty_iff (db : DB) (limit : Nat) :
    dueItems db limit = [] ↔ ∀ q ∈ db.syncQueue, ¬ q.retryCount < limit := by
  constructor
  · intro h q hq hlt
    have hmem : q ∈ dueItems db limit := mem_dueItems.mpr ⟨hq, hlt⟩
    simp [h] at hmem
  · intro h
    have hlen := dueItems_length db limit
    rw [List.filter_eq_nil_iff.mpr (by intro q hq; simpa using h q hq)] at hlen
    exact List.length_eq_zero.mp (by simpa using hlen)

theorem dueItems_ids_nodup (db : DB) (limit : Nat)
    (h : (db.syncQueue.map (fun q => q.id)).Nodup) :
    ((dueItems db limit).map (fun q => q.id)).Nodup := by
  have hperm := (dueItems_perm db limit).map (fun q => q.id)
  rw [hperm.nodup_iff]
  exact h.sublist ((List.filter_sublist _).map _)

theorem applyFailCycle_nodue (limit : Nat) (msg : String) (db : DB)
    (h : ∀ q ∈ db.syncQueue, ¬ q.retryCount < limit) :
    applyFailCycle limit msg db = db := by
  cases db with
  | mk tasks queue =>
    simp only [applyFailCycle]
    congr 1
    · have hpt : ∀ t ∈ tasks,
          (if deadLetters limit ⟨tasks, queue⟩ t.id
           then { t with syncStatus := SyncStatus.error } else t) = t := by
        intro t _
        have hdl : deadLetters limit ⟨tasks, queue⟩ t.id = false := by
          simp only [deadLetters, List.any_eq_false]
          intro q hq
          simp only [Bool.and_eq_true, decide_eq_true_eq, not_and]
          exact fun h1 => absurd (h1.1) (h q hq)
        simp [hdl]
      rw [List.map_congr_left hpt, List.map_id']
    · have hpq : ∀ q ∈ queue, bumpRow limit msg q = q := by
        intro q hq
        simp [bumpRow, h q hq]
      rw [List.map_congr_left hpq, List.map_id']

theorem sync_errorTransport_spec (limit B now : Nat) (msg : String) (db : DB)
    (hB : B ≠ 0) (hN : (db.syncQueue.map (fun q => q.id)).Nodup) :
    sync limit B now (errorTransport msg) db =
      ({ success := (dueItems db limit).length == 0
         syncedItems := 0
         failedItems := (dueItems db limit).length
         errors := (dueItems db limit).map (fun i =>
           SyncErrorEntry.batchFailure i.taskId i.operation msg) },
       applyFailCycle limit msg db,
       toBatches B (dueItems db limit)) := by
  by_cases hemp : dueItems db limit = []
  · rw [applyFailCycle_nodue limit msg db ((dueItems_empty_iff db limit).mp hemp)]
    simp [sync, hemp, toBatches_nil]
  · have hne : (dueItems db limit).isEmpty = false := by
      simpa [List.isEmpty_iff] using hemp
    simp only [sync, hne, Bool.false_eq_true, if_false]
    rw [runBatches_errorTransport]
    have hflat : (toBatches B (dueItems db limit)).flatten = dueItems db limit :=
      toBatches_flatten B hB _
    have hsum : ((toBatches B (dueItems db limit)).map List.length).sum
        = (dueItems db limit).length := by
      rw [← List.length_flatten, hflat]
    rw [hflat, hsum,
      foldl_handleSyncError limit msg (dueItems db limit) db
        (dueItems_ids_nodup db limit hN) hN (fun p hp => (mem_dueItems.mp hp).1)]
    simp only [Prod.mk.injEq, Nat.zero_add, List.nil_append]
    refine ⟨trivial, ?_, trivial⟩
    simp only [applyFailCycle]
    congr 1
    · apply List.map_congr_left
      intro t _
      have hcond : ((dueItems db limit).any (fun p =>
            decide (limit ≤ p.retryCount + 1) && (p.taskId == t.id)))
          = deadLetters limit db t.id := by
        rw [Bool.eq_iff_iff]
        simp only [List.any_eq_true, deadLetters, Bool.and_eq_true,
          decide_eq_true_eq, beq_iff_eq]
        constructor
        · rintro ⟨p, hp, hle, hid⟩
          obtain ⟨hpq, hplt⟩ := mem_dueItems.mp hp
          exact ⟨p, hpq, ⟨hplt, hle⟩, hid⟩
        · rintro ⟨q, hq, ⟨hlt, hle⟩, hid⟩
          exact ⟨q, mem_dueItems.mpr ⟨hq, hlt⟩, hle, hid⟩
      rw [hcond]
    · apply List.map_congr_left
      intro q hq
      by_cases hdue : q.retryCount < limit
      · have hany : ((dueItems db limit).any (fun p => p.id == q.id)) = true := by
          exact List.any_eq_true.mpr ⟨q, mem_dueItems.mpr ⟨hq, hdue⟩, by simp⟩
        rw [hany, if_pos rfl, bumpRow, if_pos hdue]
      · have hany : ((dueItems db limit).any (fun p => p.id == q.id)) = false := by
          rw [List.any_eq_false]
          intro p hp hpe
          obtain ⟨hpq, hplt⟩ := mem_dueItems.mp hp
          have hpe2 : p.id = q.id := by simpa using hpe
          have : p = q := List.inj_on_of_nodup_map hN hpq hq hpe2
          exact hdue (this ▸ hplt)
        rw [hany, bumpRow, if_neg hdue]
        simp

/-- Items that were due get their row bumped by an all-fail sync run. -/
theorem sync_errorTransport_bumped (limit B now : Nat) (msg : String) (db : DB)
    (hB : B ≠ 0) (hN : (db.syncQueue.map (fun q => q.id)).Nodup)
    (q : SyncQueueItem) (hq : q ∈ db.syncQueue) (hdue : q.retryCount < limit) :
    { q with retryCount := q.retryCount + 1, lastError := some msg }
      ∈ (sync limit B now (errorTransport msg) db).2.1.syncQueue := by
  rw [sync_errorTransport_spec limit B now msg db hB hN]
  simp only [applyFailCycle]
  have : bumpRow limit msg q
      = { q with retryCount := q.retryCount + 1, lastError := some msg } := by
    rw [bumpRow, if_pos hdue]
  rw [← this]
  exact List.mem_map_of_mem _ hq

/-! ### Retry-cycle iteration -/

theorem bumpRow_id (limit : Nat) (msg : String) (q : SyncQueueItem) :
    (bumpRow limit msg q).id = q.id := by
  rw [bumpRow]
  split <;> rfl

theorem applyFailCycle_ids (limit : Nat) (msg : String) (db : DB) :
    (applyFailCycle limit msg db).syncQueue.map (fun q => q.id)
      = db.syncQueue.map (fun q => q.id) := by
  simp only [applyFailCycle, List.map_map]
  apply List.map_congr_left
  intro q _
  simp only [Function.comp]
  exact bumpRow_id limit msg q

theorem syncCycles_eq_failIter (limit B now : Nat) (msg : String)
    (hB : B ≠ 0) :
    ∀ (k : Nat) (db : DB), (db.syncQueue.map (fun q => q.id)).Nodup →
      syncCycles limit B now msg k db = failIter limit msg k db := by
  intro k
  induction k with
  | zero => intro db _; rfl
  | succ k ih =>
    intro db hN
    show syncCycles limit B now msg k
        (sync limit B now (errorTransport msg) db).2.1 = _
    rw [sync_errorTransport_spec limit B now msg db hB hN]
    exact ih (applyFailCycle limit msg db)
      (by rw [applyFailCycle_ids]; exact hN)

theorem failIter_syncQueue (limit : Nat) (msg : String) :
    ∀ (k : Nat) (db : DB),
      (failIter limit msg k db).syncQueue
        = db.syncQueue.map (bumpIter limit msg k) := by
  intro k
  induction k with
  | zero =>
    intro db
    show db.syncQueue = _
    rw [show (bumpIter limit msg 0) = (fun q => q) from rfl, List.map_id']
  | succ k ih =>
    intro db
    show (failIter limit msg k (applyFailCycle limit msg db)).syncQueue = _
    rw [ih]
    simp only [applyFailCycle, List.map_map]
    rfl

theorem bumpIter_eval (limit : Nat) (msg : String) :
    ∀ (k : Nat) (q : SyncQueueItem), q.retryCount + k ≤ limit → 1 ≤ k →
      bumpIter limit msg k q
        = { q with retryCount := q.retryCount + k, lastError := some msg } := by
  intro k
  induction k with
  | zero => intro q _ h1; omega
  | succ k ih =>
    intro q hle _
    show bumpIter limit msg k (bumpRow limit msg q) = _
    have hlt : q.retryCount < limit := by omega
    rw [bumpRow, if_pos hlt]
    rcases Nat.eq_zero_or_pos k with rfl | hk
    · show ({ q with retryCount := q.retryCount + 1, lastError := some msg }
          : SyncQueueItem) = _
      rfl
    · rw [ih { q with retryCount := q.retryCount + 1, lastError := some msg }
        (by simpa using by omega) hk]
      simp only [SyncQueueItem.mk.injEq, and_true, true_and]
      all_goals omega

theorem failIter_tasks_mem (limit : Nat) (msg : String) :
    ∀ (k : Nat) (db : DB) (t : Task), t ∈ db.tasks →
      ∃ u, u ∈ (failIter limit msg k db).tasks ∧ u.id = t.id := by
  intro k
  induction k with
  | zero => intro db t ht; exact ⟨t, ht, rfl⟩
  | succ k ih =>
    intro db t ht
    have hstep : (if deadLetters limit db t.id
          then { t with syncStatus := SyncStatus.error } else t)
        ∈ (applyFailCycle limit msg db).tasks := by
      simp only [applyFailCycle]
      exact List.mem_map_of_mem _ ht
    have hid : (if deadLetters limit db t.id
          then { t with syncStatus := SyncStatus.error } else t).id = t.id := by
      split <;> rfl
    obtain ⟨u, hu, huid⟩ := ih (applyFailCycle limit msg db) _ hstep
    exact ⟨u, hu, huid.trans hid⟩

theorem failIter_succ_outer (limit : Nat) (msg : String) :
    ∀ (k : Nat) (db : DB),
      failIter limit msg (k + 1) db
        = applyFailCycle limit msg (failIter limit msg k db) := by
  intro k
  induction k with
  | zero => intro db; rfl
  | succ k ih =>
    intro db
    show failIter limit msg (k + 1) (applyFailCycle limit msg db) = _
    rw [ih (applyFailCycle limit msg db)]
    rfl

/-- After `limit` consecutive all-fail cycles starting from a fresh item,
the item's row shows `retry_count = limit` with the stored error, it is
still in the queue, and the owning task is marked `'error'`. -/
theorem failIter_deadletter (limit : Nat) (msg : String) (db : DB)
    (item : SyncQueueItem) (t : Task)
    (hmem : item ∈ db.syncQueue) (hrc : item.retryCount = 0)
    (hlim : 0 < limit) (ht : t ∈ db.tasks) (hid : t.id = item.taskId) :
    ({ item with retryCount := limit, lastError := some msg }
        ∈ (failIter limit msg limit db).syncQueue) ∧
    (∃ u, u ∈ (failIter limit msg limit db).tasks ∧ u.id = item.taskId ∧
        u.syncStatus = SyncStatus.error) := by
  obtain ⟨m, rfl⟩ : ∃ m, limit = m + 1 := ⟨limit - 1, by omega⟩
  constructor
  · rw [failIter_syncQueue]
    have heval : bumpIter (m + 1) msg (m + 1) item
        = { item with retryCount := m + 1, lastError := some msg } := by
      rw [bumpIter_eval (m + 1) msg (m + 1) item (by omega) (by omega)]
      simp only [SyncQueueItem.mk.injEq, and_true, true_and]
      all_goals omega
    rw [← heval]
    exact List.mem_map_of_mem _ hmem
  · rw [failIter_succ_outer]
    obtain ⟨u, hu, huid⟩ := failIter_tasks_mem (m + 1) msg m db t ht
    have hrowmem : bumpIter (m + 1) msg m item
        ∈ (failIter (m + 1) msg m db).syncQueue := by
      rw [failIter_syncQueue]
      exact List.mem_map_of_mem _ hmem
    have hrow : (bumpIter (m + 1) msg m item).retryCount = m
        ∧ (bumpIter (m + 1) msg m item).taskId = item.taskId := by
      rcases Nat.eq_zero_or_pos m with rfl | hm
      · exact ⟨hrc, rfl⟩
      · rw [bumpIter_eval (m + 1) msg m item (by omega) hm]
        exact ⟨by simp [hrc], rfl⟩
    have hdl : deadLetters (m + 1) (failIter (m + 1) msg m db) u.id = true := by
      rw [deadLetters, List.any_eq_true]
      refine ⟨bumpIter (m + 1) msg m item, hrowmem, ?_⟩
      simp only [Bool.and_eq_true, decide_eq_true_eq, beq_iff_eq]
      exact ⟨⟨by omega, by omega⟩, by rw [hrow.2, ← hid, huid]⟩
    refine ⟨{ u with syncStatus := SyncStatus.error }, ?_, ?_, rfl⟩
    · simp only [applyFailCycle]
      have : ({ u with syncStatus := SyncStatus.error } : Task)
          = if deadLetters (m + 1) (failIter (m + 1) msg m db) u.id
            then { u with syncStatus := SyncStatus.error } else u := by
        rw [hdl, if_pos rfl]
      rw [this]
      exact List.mem_map_of_mem _ hu
    · show u.id = item.taskId
      rw [huid, hid]

/-! ### The all-success cycle and the offline round trip -/

theorem sync_successTransport_spec (limit B now : Nat) (db : DB) (hB : B ≠ 0) :
    sync limit B now successTransport db =
      ({ success := true, syncedItems := (dueItems db limit).length,
         failedItems := 0, errors := [] },
       applySuccess now ((dueItems db limit).map (fun q => q.taskId)) db,
       toBatches B (dueItems db limit)) := by
  by_cases hemp : dueItems db limit = []
  · simp [sync, hemp, toBatches_nil, applySuccess_nil]
  · have hne : (dueItems db limit).isEmpty = false := by
      simpa [List.isEmpty_iff] using hemp
    simp only [sync, hne, Bool.false_eq_true, if_false]
    rw [runBatches_successTransport]
    have hflat := toBatches_flatten B hB (dueItems db limit)
    have hsum : ((toBatches B (dueItems db limit)).map List.length).sum
        = (dueItems db limit).length := by
      rw [← List.length_flatten, hflat]
    rw [hflat, hsum]
    simp

theorem createMany_spec (now : Nat) :
    ∀ (ins : List (String × TaskUpdates)) (db : DB),
      (createMany now ins db).tasks
        = db.tasks ++ ins.map (fun p => storedTaskRow (mkCreatedTask p.1 now p.2)) ∧
      (createMany now ins db).syncQueue
        = db.syncQueue ++ ins.map (fun p =>
            createQueueItem 0 (mkCreatedTask p.1 now p.2) now) := by
  intro ins
  induction ins with
  | nil => intro db; simp [createMany]
  | cons p ins ih =>
    intro db
    obtain ⟨i, u⟩ := p
    have h1 := ih (createTask db now i 0 u true).2
    show (createMany now ins (createTask db now i 0 u true).2).tasks = _ ∧
      (createMany now ins (createTask db now i 0 u true).2).syncQueue = _
    rw [h1.1, h1.2]
    simp [createTask, List.append_assoc]

/-- Offline round trip: creating the tasks in `ins` enqueues one item per
task, and one fully successful sync run drains the queue and marks every
task synced. -/
theorem createMany_roundTrip (now now2 limit B : Nat)
    (ins : List (String × TaskUpdates)) (hlim : 0 < limit) (hB : B ≠ 0) :
    (createMany now ins emptyDB).syncQueue.length = ins.length ∧
    (sync limit B now2 successTransport (createMany now ins emptyDB)).2.1.syncQueue
      = [] ∧
    (∀ t ∈ (sync limit B now2 successTransport
        (createMany now ins emptyDB)).2.1.tasks, t.syncStatus = .synced) := by
  obtain ⟨htasks, hqueue⟩ := createMany_spec now ins emptyDB
  have hq0 : (createMany now ins emptyDB).syncQueue
      = ins.map (fun p => createQueueItem 0 (mkCreatedTask p.1 now p.2) now) := by
    simpa [emptyDB] using hqueue
  have ht0 : (createMany now ins emptyDB).tasks
      = ins.map (fun p => storedTaskRow (mkCreatedTask p.1 now p.2)) := by
    simpa [emptyDB] using htasks
  refine ⟨by rw [hq0]; simp, ?_, ?_⟩
  · rw [sync_successTransport_spec limit B now2 _ hB]
    simp only [applySuccess]
    rw [List.filter_eq_nil_iff]
    intro q hq
    have hdue : q ∈ dueItems (createMany now ins emptyDB) limit := by
      refine mem_dueItems.mpr ⟨hq, ?_⟩
      rw [hq0] at hq
      obtain ⟨p, _, rfl⟩ := List.mem_map.mp hq
      simpa [createQueueItem] using hlim
    have hin : ((dueItems (createMany now ins emptyDB) limit).map
        (fun q => q.taskId)).any (fun c => q.taskId == c) = true := by
      rw [List.any_eq_true]
      exact ⟨q.taskId, List.mem_map_of_mem _ hdue, by simp⟩
    simp [hin]
  · rw [sync_successTransport_spec limit B now2 _ hB]
    intro t ht
    simp only [applySuccess] at ht
    obtain ⟨t0, ht0mem, rfl⟩ := List.mem_map.mp ht
    have hid : ∃ p ∈ ins, (storedTaskRow (mkCreatedTask p.1 now p.2)).id = t0.id := by
      rw [ht0] at ht0mem
      obtain ⟨p, hp, rfl⟩ := List.mem_map.mp ht0mem
      exact ⟨p, hp, rfl⟩
    obtain ⟨p, hp, hpid⟩ := hid
    have hrow : createQueueItem 0 (mkCreatedTask p.1 now p.2) now
        ∈ (createMany now ins emptyDB).syncQueue := by
      rw [hq0]
      exact List.mem_map_of_mem _ hp
    have hduep : createQueueItem 0 (mkCreatedTask p.1 now p.2) now
        ∈ dueItems (createMany now ins emptyDB) limit :=
      mem_dueItems.mpr ⟨hrow, by simpa [createQueueItem] using hlim⟩
    have hcond : ((dueItems (createMany now ins emptyDB) limit).map
        (fun q => q.taskId)).any (fun c => t0.id == c) = true := by
      rw [List.any_eq_true]
      refine ⟨(createQueueItem 0 (mkCreatedTask p.1 now p.2) now).taskId,
        List.mem_map_of_mem _ hduep, ?_⟩
      have : (createQueueItem 0 (mkCreatedTask p.1 now p.2) now).taskId = t0.id := by
        rw [← hpid]
        rfl
      simp [this]
    rw [hcond, if_pos rfl]
    rfl

/-! ### Claim theorems -/

/-- C1 counterexample: with equal `updated_at` timestamps, a remote
version embodying a pending delete (`is_deleted = true`) against a local
side whose pending operation is a `create`, `resolveConflict` returns the
local side, not the delete side — the operation-priority tie-break
delete > update > create claimed by the spec is never applied. -/
theorem C1_counterexample :
    c1local.updatedAt = c1remote.updatedAt ∧
    c1remote.isDeleted = true ∧ c1local.isDeleted = false ∧
    (mkQ 1 "t1" .create 0 0) ∈ c1db.syncQueue ∧
    (mkQ 1 "t1" .create 0 0).operation = Operation.create ∧
    resolveConflictRun c1db 0 0 "t1" c1remote = some (c1local, c1db) ∧
    c1local ≠ c1remote := by decide

/-- C1 (amended): on an exact `updated_at` tie the LOCAL side always wins
(`localTime >= serverTime` returns the local task); the pending operations
are not consulted and no delete > update > create tie-break exists.  The
store is left untouched in this branch. -/
theorem C1_tie_local_wins (db : DB) (now qid : Nat) (cid : String)
    (localTask serverTask : Task) (h : findTask db cid = some localTask)
    (heq : serverTask.updatedAt = localTask.updatedAt) :
    resolveConflictRun db now qid cid serverTask = some (localTask, db) := by
  simp [resolveConflictRun, h, heq]

/-- C1 witness: the amended tie rule at the concrete fixture. -/
theorem C1_witness :
    findTask c1db "t1" = some c1local ∧
    c1remote.updatedAt = c1local.updatedAt ∧
    resolveConflictRun c1db 5 7 "t1" c1remote = some (c1local, c1db) :=
  ⟨by decide, by decide,
    C1_tie_local_wins c1db 5 7 "t1" c1local c1remote (by decide) (by decide)⟩

/-- C2: with strictly later local `updated_at` the local task is returned
unchanged (store untouched); with strictly later remote `updated_at` the
remote task is the returned winner. -/
theorem C2_strictly_newer_wins (db : DB) (now qid : Nat) (cid : String)
    (localTask serverTask : Task) (h : findTask db cid = some localTask) :
    (serverTask.updatedAt < localTask.updatedAt →
      resolveConflictRun db now qid cid serverTask = some (localTask, db)) ∧
    (localTask.updatedAt < serverTask.updatedAt →
      (resolveConflictRun db now qid cid serverTask).map Prod.fst
        = some serverTask) := by
  constructor
  · intro hlt
    simp [resolveConflictRun, h, le_of_lt hlt]
  · intro hlt
    have hnle : ¬ serverTask.updatedAt ≤ localTask.updatedAt := by omega
    simp [resolveConflictRun, h, hnle]

/-- C2 witness: both strict branches at concrete fixtures. -/
theorem C2_witness :
    findTask c3db "t1" = some c3local ∧
    c3local.updatedAt < c3remote.updatedAt ∧
    (resolveConflictRun c3db 30 1 "t1" c3remote).map Prod.fst = some c3remote ∧
    (mkT "t1" 5 false).updatedAt < c3local.updatedAt ∧
    resolveConflictRun c3db 2 3 "t1" (mkT "t1" 5 false) = some (c3local, c3db) :=
  ⟨by decide, by decide,
    (C2_strictly_newer_wins c3db 30 1 "t1" c3local c3remote (by decide)).2 (by decide),
    by decide,
    (C2_strictly_newer_wins c3db 2 3 "t1" c3local (mkT "t1" 5 false) (by decide)).1
      (by decide)⟩

/-- C3 counterexample: resolving a pair the remote wins is NOT free of
side effects: the store after resolution differs from the store before
(the remote version is written back through `updateTask`, which also
appends an `update` item to the Mutation Queue). -/
theorem C3_counterexample :
    (resolveConflictRun c3db 30 1 "t1" c3remote).map Prod.snd ≠ some c3db ∧
    (resolveConflictRun c3db 30 1 "t1" c3remote).map
      (fun p => p.2.syncQueue.length) = some 1 ∧
    c3db.syncQueue.length = 0 := by decide

/-- C3 (amended): the conflict decision is deterministic — resolving the
same (local, remote) version pair yields the same winner regardless of
store state or call parameters, so re-resolution is repeatable — but
resolution only returns a decision without writes when the local side
wins; when the remote side wins it writes back to the store. -/
theorem C3_decision_deterministic_but_writes :
    (∀ (db db' : DB) (now now' qid qid' : Nat) (cid cid' : String)
        (localTask serverTask : Task),
        findTask db cid = some localTask → findTask db' cid' = some localTask →
        (resolveConflictRun db now qid cid serverTask).map Prod.fst
          = (resolveConflictRun db' now' qid' cid' serverTask).map Prod.fst) ∧
    (∀ (db : DB) (now qid : Nat) (cid : String) (localTask serverTask : Task),
        findTask db cid = some localTask →
        serverTask.updatedAt ≤ localTask.updatedAt →
        resolveConflictRun db now qid cid serverTask = some (localTask, db)) := by
  constructor
  · intro db db' now now' qid qid' cid cid' lt st h h'
    by_cases hle : st.updatedAt ≤ lt.updatedAt
    · simp [resolveConflictRun, h, h', hle]
    · simp [resolveConflictRun, h, h', hle]
  · intro db now qid cid lt st h hle
    simp [resolveConflictRun, h, hle]

/-- C3 witness: the same version pair resolved against two different
stores yields the same winner. -/
theorem C3_witness :
    findTask c3db "t1" = some c3local ∧
    findTask c3db2 "t1" = some c3local ∧
    (resolveConflictRun c3db 30 1 "t1" c3remote).map Prod.fst
      = (resolveConflictRun c3db2 99 4 "t1" c3remote).map Prod.fst :=
  ⟨by decide, by decide,
    C3_decision_deterministic_but_writes.1 c3db c3db2 30 99 1 4 "t1" "t1"
      c3local c3remote (by decide) (by decide)⟩

/-- C4 counterexample: confirming one queue item deletes EVERY queue row
with the same `task_id`: with two pending items for task A, recording the
success keyed by task A empties the queue instead of keeping the other
item. -/
theorem C4_counterexample :
    twoItemSameTaskDB.syncQueue.length = 2 ∧
    (mkQ 2 "A" .update 0 1) ∈ twoItemSameTaskDB.syncQueue ∧
    (mkQ 2 "A" .update 0 1).id ≠ (mkQ 1 "A" .create 0 0).id ∧
    (updateSyncStatus twoItemSameTaskDB 9 "A" .synced none).syncQueue = [] := by
  decide

/-- C4 (amended): recording a success removes every queue item whose
`task_id` equals the confirmed task (not exactly the one item); items of
other tasks remain.  The round-trip consequence still holds: creating N
tasks offline enqueues exactly N items, and a fully successful sync
empties the queue with every task marked synced. -/
theorem C4_removal_by_task_id_and_roundtrip :
    (∀ (db : DB) (now : Nat) (c : String) (rd : Option ResolvedData),
        (updateSyncStatus db now c .synced rd).syncQueue
          = db.syncQueue.filter (fun q => !(q.taskId == c))) ∧
    (∀ (db : DB) (now : Nat) (c : String) (rd : Option ResolvedData)
        (q : SyncQueueItem), q ∈ db.syncQueue → q.taskId ≠ c →
        q ∈ (updateSyncStatus db now c .synced rd).syncQueue) ∧
    (∀ (now now2 limit B : Nat) (ins : List (String × TaskUpdates)),
        0 < limit → B ≠ 0 →
        (createMany now ins emptyDB).syncQueue.length = ins.length ∧
        (sync limit B now2 successTransport
            (createMany now ins emptyDB)).2.1.syncQueue = [] ∧
        ∀ t ∈ (sync limit B now2 successTransport
            (createMany now ins emptyDB)).2.1.tasks,
          t.syncStatus = .synced) := by
  refine ⟨fun db now c rd => rfl, ?_, ?_⟩
  · intro db now c rd q hq hne
    show q ∈ (updateSyncStatus db now c .synced rd).syncQueue
    simp only [updateSyncStatus]
    rw [List.mem_filter]
    exact ⟨hq, by simpa using hne⟩
  · intro now now2 limit B ins hlim hB
    exact createMany_roundTrip now now2 limit B ins hlim hB

/-- C4 witness: an item of a different task survives, and a concrete
two-task offline round trip enqueues two items. -/
theorem C4_witness :
    (mkQ 3 "C" .create 0 2) ∈ threeItemDB.syncQueue ∧
    (mkQ 3 "C" .create 0 2).taskId ≠ "A" ∧
    (mkQ 3 "C" .create 0 2) ∈
      (updateSyncStatus threeItemDB 9 "A" .synced none).syncQueue ∧
    (0:Nat) < 3 ∧ (2:Nat) ≠ 0 ∧
    (createMany 7 [("A", ⟨none, none, none⟩), ("B", ⟨some "x", none, none⟩)]
      emptyDB).syncQueue.length = 2 :=
  ⟨by decide, by decide,
    C4_removal_by_task_id_and_roundtrip.2.1 threeItemDB 9 "A" none
      (mkQ 3 "C" .create 0 2) (by decide) (by decide),
    by decide, by decide,
    (C4_removal_by_task_id_and_roundtrip.2.2 7 0 3 2
      [("A", ⟨none, none, none⟩), ("B", ⟨some "x", none, none⟩)]
      (by decide) (by decide)).1⟩

/-- C5 counterexample: a per-item `error` result is only counted and
collected — `recordFailure` is NOT invoked: after the sync run the item's
`retry_count` is still 0 and `last_error` still empty, contradicting the
claimed increment and message store. -/
theorem C5_counterexample :
    (sync 3 50 0 (rejectTransport "bad") oneItemDB).1.failedItems = 1 ∧
    (sync 3 50 0 (rejectTransport "bad") oneItemDB).2.1 = oneItemDB ∧
    ((sync 3 50 0 (rejectTransport "bad") oneItemDB).2.1.syncQueue.map
      (fun q => q.retryCount)) = [0] ∧
    ((sync 3 50 0 (rejectTransport "bad") oneItemDB).2.1.syncQueue.map
      (fun q => q.lastError)) = [none] := by decide

/-- C5 (amended): per-item `error` results increment the failed count
(and are appended to the errors array), but no queue write happens: the
whole store is unchanged, so the item keeps its `retry_count` and
`last_error` and stays in the queue. -/
theorem C5_reject_counts_but_no_recordFailure (limit B now : Nat)
    (msg : String) (db : DB) (hB : B ≠ 0) :
    (sync limit B now (rejectTransport msg) db).2.1 = db ∧
    (sync limit B now (rejectTransport msg) db).1.failedItems
      = (dueItems db limit).length ∧
    (sync limit B now (rejectTransport msg) db).1.syncedItems = 0 := by
  by_cases hemp : dueItems db limit = []
  · simp [sync, hemp]
  · have hne : (dueItems db limit).isEmpty = false := by
      simpa [List.isEmpty_iff] using hemp
    simp only [sync, hne, Bool.false_eq_true, if_false]
    rw [runBatches_rejectTransport]
    have hsum : ((toBatches B (dueItems db limit)).map List.length).sum
        = (dueItems db limit).length := by
      rw [← List.length_flatten, toBatches_flatten B hB]
    simp [hsum]

/-- C5 witness: the amended statement at the concrete one-item store. -/
theorem C5_witness :
    (2:Nat) ≠ 0 ∧
    (sync 3 2 0 (rejectTransport "bad") oneItemDB).2.1 = oneItemDB :=
  ⟨by decide,
    (C5_reject_counts_but_no_recordFailure 3 2 0 "bad" oneItemDB (by decide)).1⟩

/-- C6 counterexample: when the queue INSERT of `createTask` fails, the
error propagates, but the store is NOT left as if nothing had happened:
the task row has already been inserted and survives without any queue
item. -/
theorem C6_counterexample :
    (createTask emptyDB 5 "A" 0 ⟨none, none, none⟩ false).1
      = Except.error "Not implemented" ∧
    (createTask emptyDB 5 "A" 0 ⟨none, none, none⟩ false).2 ≠ emptyDB ∧
    (createTask emptyDB 5 "A" 0 ⟨none, none, none⟩ false).2.tasks.length = 1 ∧
    (createTask emptyDB 5 "A" 0 ⟨none, none, none⟩ false).2.syncQueue = [] := by
  decide

/-- C6 (amended): a failing queue append makes the CRUD operation throw
(error propagation holds), but the operation is not atomic: the preceding
task-store write persists — `createTask` leaves the inserted row and
`updateTask` leaves the updated row, in both cases with no queue entry
appended. -/
theorem C6_enqueue_failure_propagates_but_no_rollback :
    (∀ (db : DB) (now : Nat) (id : String) (qid : Nat) (input : TaskUpdates),
        (createTask db now id qid input false).1
          = Except.error "Not implemented" ∧
        (createTask db now id qid input false).2.tasks
          = db.tasks ++ [storedTaskRow (mkCreatedTask id now input)] ∧
        (createTask db now id qid input false).2.syncQueue = db.syncQueue) ∧
    (∀ (db : DB) (now qid : Nat) (id : String) (u : TaskUpdates) (t : Task),
        findTask db id = some t → t.isDeleted = false →
        (updateTask db now qid false id u).1
          = Except.error "Failed to update task" ∧
        (updateTask db now qid false id u).2.syncQueue = db.syncQueue ∧
        (updateTask db now qid false id u).2.tasks
          = db.tasks.map (fun x => if x.id == id
              then writeTaskUpdate (applyUpdates t u now) x else x)) := by
  constructor
  · intro db now id qid input
    exact ⟨rfl, rfl, rfl⟩
  · intro db now qid id u t h hdel
    simp [updateTask, h, hdel]

/-- C6 witness: the update half of the amended statement at a concrete
store. -/
theorem C6_witness :
    findTask oneItemDB "A" = some (mkT "A" 0 false) ∧
    (mkT "A" 0 false).isDeleted = false ∧
    (updateTask oneItemDB 5 9 false "A" ⟨some "new", none, none⟩).1
      = Except.error "Failed to update task" ∧
    (updateTask oneItemDB 5 9 false "A" ⟨some "new", none, none⟩).2.syncQueue
      = oneItemDB.syncQueue :=
  ⟨by decide, by decide,
    (C6_enqueue_failure_propagates_but_no_rollback.2 oneItemDB 5 9 "A"
      ⟨some "new", none, none⟩ (mkT "A" 0 false) (by decide) (by decide)).1,
    (C6_enqueue_failure_propagates_but_no_rollback.2 oneItemDB 5 9 "A"
      ⟨some "new", none, none⟩ (mkT "A" 0 false) (by decide) (by decide)).2.1⟩

/-- C7: a transport-level batch failure runs every item of the batch
through `handleSyncError` — every due row is bumped with the error
recorded — the failed count equals the total number of due items across
all batches (no partial credit), no item is counted synced, and the final
store is exactly one all-fail cycle (so later batches were still
processed). -/
theorem C7_transport_failure_fails_whole_batches (limit B now : Nat)
    (msg : String) (db : DB) (hB : B ≠ 0)
    (hN : (db.syncQueue.map (fun q => q.id)).Nodup) :
    (sync limit B now (errorTransport msg) db).1.failedItems
      = (dueItems db limit).length ∧
    (sync limit B now (errorTransport msg) db).1.syncedItems = 0 ∧
    (sync limit B now (errorTransport msg) db).2.1
      = applyFailCycle limit msg db ∧
    (∀ q ∈ db.syncQueue, q.retryCount < limit →
      { q with retryCount := q.retryCount + 1, lastError := some msg }
        ∈ (sync limit B now (errorTransport msg) db).2.1.syncQueue) := by
  refine ⟨?_, ?_, ?_, ?_⟩
  · rw [sync_errorTransport_spec limit B now msg db hB hN]
  · rw [sync_errorTransport_spec limit B now msg db hB hN]
  · rw [sync_errorTransport_spec limit B now msg db hB hN]
  · intro q hq hdue
    exact sync_errorTransport_bumped limit B now msg db hB hN q hq hdue

/-- C7 witness: one batch failing at the transport level at the concrete
one-item store. -/
theorem C7_witness :
    (2:Nat) ≠ 0 ∧
    (oneItemDB.syncQueue.map (fun q => q.id)).Nodup ∧
    (sync 3 2 0 (errorTransport "down") oneItemDB).1.failedItems = 1 ∧
    (sync 3 2 0 (errorTransport "down") oneItemDB).2.1
      = applyFailCycle 3 "down" oneItemDB :=
  ⟨by decide, by decide,
    ((C7_transport_failure_fails_whole_batches 3 2 0 "down" oneItemDB
      (by decide) (by decide)).1).trans (by decide),
    (C7_transport_failure_fails_whole_batches 3 2 0 "down" oneItemDB
      (by decide) (by decide)).2.2.1⟩

/-- C8: when repeated all-fail cycles exhaust an item's retry budget, the
item is dead-lettered but retained: after `retryLimit` fully failing sync
cycles its queue row still exists, showing `retry_count = retryLimit` and
the stored `last_error`, and the owning task's `sync_status` is
`'error'`. -/
theorem C8_deadletter_retained_not_deleted (limit B now : Nat) (msg : String)
    (db : DB) (item : SyncQueueItem) (t : Task) (hB : B ≠ 0)
    (hN : (db.syncQueue.map (fun q => q.id)).Nodup)
    (hmem : item ∈ db.syncQueue) (hrc : item.retryCount = 0)
    (hlim : 0 < limit) (ht : t ∈ db.tasks) (hid : t.id = item.taskId) :
    ({ item with retryCount := limit, lastError := some msg }
        ∈ (syncCycles limit B now msg limit db).syncQueue) ∧
    (∃ u, u ∈ (syncCycles limit B now msg limit db).tasks ∧
        u.id = item.taskId ∧ u.syncStatus = SyncStatus.error) := by
  rw [syncCycles_eq_failIter limit B now msg hB limit db hN]
  exact failIter_deadletter limit msg db item t hmem hrc hlim ht hid

/-- C8 witness: three failing cycles with retry limit 3 at the concrete
one-item store. -/
theorem C8_witness :
    (50:Nat) ≠ 0 ∧ (mkQ 1 "A" .create 0 0) ∈ oneItemDB.syncQueue ∧
    (0:Nat) < 3 ∧
    ({ mkQ 1 "A" .create 0 0 with retryCount := 3, lastError := some "down" }
        ∈ (syncCycles 3 50 0 "down" 3 oneItemDB).syncQueue) :=
  ⟨by decide, by decide, by decide,
    (C8_deadletter_retained_not_deleted 3 50 0 "down" oneItemDB
      (mkQ 1 "A" .create 0 0) (mkT "A" 0 false) (by decide) (by decide)
      (by decide) (by decide) (by decide) (by decide) (by decide)).1⟩

/-- C9: with batch size B > 0 and Q due items, `sync` hands the transport
exactly ceil(Q/B) batch payloads, each of size at most B and all but the
last of size exactly B; when the transport answers one per-item result per
item, synced + failed = Q; the returned success flag is true exactly when
failed_items = 0; and an empty queue yields no transport call and the
zero success result. -/
theorem C9_batch_partitioning (limit B now : Nat)
    (transport : List SyncQueueItem → BatchOutcome) (db : DB) (hB : B ≠ 0)
    (htr : ∀ b res, transport b = BatchOutcome.ok res → res.length = b.length) :
    ((sync limit B now transport db).2.2.length
        = ((dueItems db limit).length + B - 1) / B) ∧
    (∀ r ∈ (sync limit B now transport db).2.2, r.length ≤ B) ∧
    (∀ r ∈ ((sync limit B now transport db).2.2).dropLast, r.length = B) ∧
    ((sync limit B now transport db).1.syncedItems
        + (sync limit B now transport db).1.failedItems
        = (dueItems db limit).length) ∧
    ((sync limit B now transport db).1.success = true
        ↔ (sync limit B now transport db).1.failedItems = 0) ∧
    (dueItems db limit = [] →
      (sync limit B now transport db).2.2 = [] ∧
      (sync limit B now transport db).1
        = { success := true, syncedItems := 0, failedItems := 0,
            errors := [] }) := by
  by_cases hemp : dueItems db limit = []
  · have hzero : (B - 1) / B = 0 := Nat.div_eq_of_lt (by omega)
    refine ⟨?_, ?_, ?_, ?_, ?_, ?_⟩ <;>
      simp [sync, hemp, hzero]
  · have hne : (dueItems db limit).isEmpty = false := by
      simpa [List.isEmpty_iff] using hemp
    have h32 : (sync limit B now transport db).2.2
        = toBatches B (dueItems db limit) := by
      simp only [sync, hne, Bool.false_eq_true, if_false]
    have h1 : (sync limit B now transport db).1
        = (runBatches limit now transport (toBatches B (dueItems db limit))
            db 0 0 []).1 := by
      simp only [sync, hne, Bool.false_eq_true, if_false]
    have hsum : ((toBatches B (dueItems db limit)).map List.length).sum
        = (dueItems db limit).length := by
      rw [← List.length_flatten, toBatches_flatten B hB]
    refine ⟨?_, ?_, ?_, ?_, ?_, fun h => absurd h hemp⟩
    · rw [h32]
      exact toBatches_length B hB _
    · intro r hr
      rw [h32] at hr
      exact toBatches_le B hB _ r hr
    · intro r hr
      rw [h32] at hr
      exact toBatches_dropLast B hB _ r hr
    · rw [h1, runBatches_counts limit now transport htr]
      simpa using hsum
    · rw [h1, runBatches_success_eq]
      exact beq_iff_eq

/-- C9 witness: three due items with batch size two. -/
theorem C9_witness :
    (2:Nat) ≠ 0 ∧
    (sync 3 2 0 successTransport threeItemDB).2.2.length = 2 ∧
    (sync 3 2 0 successTransport threeItemDB).1.syncedItems
      + (sync 3 2 0 successTransport threeItemDB).1.failedItems = 3 := by
  have htr : ∀ b res, successTransport b = BatchOutcome.ok res
      → res.length = b.length := by
    intro b res hres
    simp only [successTransport, BatchOutcome.ok.injEq] at hres
    rw [← hres]
    simp
  have h := C9_batch_partitioning 3 2 0 successTransport threeItemDB
    (by decide) htr
  exact ⟨by decide, h.1.trans (by decide), h.2.2.2.1.trans (by decide)⟩

/-- C10: for a task id that is missing from the store or refers to a
soft-deleted row, `updateTask` returns null and `deleteTask` returns
false, and in both cases the store — task rows and queue alike — is left
completely unchanged. -/
theorem C10_missing_or_deleted_is_noop (db : DB) (now qid : Nat)
    (queueOk : Bool) (id : String) (u : TaskUpdates)
    (h : (findTask db id).all (fun t => t.isDeleted) = true) :
    updateTask db now qid queueOk id u = (Except.ok none, db) ∧
    deleteTask db now qid queueOk id = (Except.ok false, db) := by
  cases hf : findTask db id with
  | none => simp [updateTask, deleteTask, hf]
  | some t =>
    have hdel : t.isDeleted = true := by simpa [hf] using h
    simp [updateTask, deleteTask, hf, hdel]

/-- C10 witness: a soft-deleted task and a missing id at the concrete
store. -/
theorem C10_witness :
    ((findTask c10db "A").all (fun t => t.isDeleted) = true) ∧
    ((findTask c10db "B").all (fun t => t.isDeleted) = true) ∧
    updateTask c10db 5 0 true "A" ⟨some "x", none, none⟩
      = (Except.ok none, c10db) ∧
    deleteTask c10db 5 0 true "B" = (Except.ok false, c10db) :=
  ⟨by decide, by decide,
    (C10_missing_or_deleted_is_noop c10db 5 0 true "A" ⟨some "x", none, none⟩
      (by decide)).1,
    (C10_missing_or_deleted_is_noop c10db 5 0 true "B" ⟨none, none, none⟩
      (by decide)).2⟩

end SyncSpec
